import Mathlib

/-!
Shallow embedding of the request-validation and type-coercion pipeline of the
home-price prediction API (src/app.py), together with the pieces of the
/predict request handler that the validation claims are about.

Modelling conventions:
* JSON scalar values are the inductive `JVal`; JSON numbers are modelled
  exactly, as an `Int` (JSON integer literal) or a rational (JSON fraction).
  The source uses Python floats; the embedding idealises them as exact
  rationals, so decimal parsing and the sign test are exact.
* A JSON object / Python dict is an association list `Record`, iterated in
  insertion order, exactly as Python 3 dicts are.  Keys of a dict are unique;
  theorems that need this state it as a `Nodup` hypothesis on the key list.
* Python `int(...)`, `float(...)` and `str(...)` applied to a JSON scalar are
  `convert`.  The string parsers model the standard decimal forms (optional
  surrounding whitespace, optional sign, digits, fraction, exponent); the
  exotic Python extras (underscore digit separators, "inf", "nan") are not
  modelled, nor are inputs using them used in any theorem.
* The model object is opaque: an arbitrary function from the assembled table
  to either predictions or an error message.
-/

/-- A JSON scalar value as delivered by Flask's `request.get_json()`:
a Python `str`, `int`, `float`, `bool` or `None`. -/
inductive JVal where
  | str : String → JVal
  | int : Int → JVal
  | float : ℚ → JVal
  | bool : Bool → JVal
  | null : JVal
deriving DecidableEq

/-- A value produced by a successful `expected_type(value)` conversion in
`check_data_types_and_values`: one of the three schema types. -/
inductive PyVal where
  | int : Int → PyVal
  | float : ℚ → PyVal
  | str : String → PyVal
deriving DecidableEq

/-- The closed set of schema types, `type_mapping` in src/app.py. -/
inductive PyType where
  | int | float | str
deriving DecidableEq

/-- A JSON object / Python dict: association list in insertion order. -/
abbrev Record := List (String × JVal)

/-- The feature schema `expected_features`: field name to declared type,
in insertion order of features.json. -/
abbrev Schema := List (String × PyType)

/-- `d[k]` / `d.get(k)` on a dict: the value at the first (only) binding. -/
def lookupVal (r : Record) (f : String) : Option JVal :=
  match r with
  | [] => none
  | (g, v) :: rest => if g = f then some v else lookupVal rest f

/-- `field in d` membership test on a dict. -/
def hasKey (r : Record) (f : String) : Bool :=
  match r with
  | [] => false
  | (g, _) :: rest => if g = f then true else hasKey rest f

/-- `field in expected_features` membership test on the schema dict. -/
def schemaHasKey (s : Schema) (f : String) : Bool :=
  match s with
  | [] => false
  | (g, _) :: rest => if g = f then true else schemaHasKey rest f

/-- `d[k] = v` on a dict: replaces the existing binding in place (keeping its
position), or appends a new binding at the end. -/
def updateField (r : Record) (f : String) (v : JVal) : Record :=
  match r with
  | [] => [(f, v)]
  | (g, w) :: rest => if g = f then (g, v) :: rest else (g, w) :: updateField rest f v

/-- Python `repr` of a plain string (no embedded quotes in any field name
used by the app): single quotes around the text. -/
def pyQuote (s : String) : String := "'" ++ s ++ "'"

/-- Python `repr`/f-string rendering of a list of strings, as produced by
f"{missing_fields}" in src/app.py: brackets, comma-space separated, each
element single-quoted. -/
def pyListRepr (l : List String) : String :=
  "[" ++ String.intercalate ", " (l.map pyQuote) ++ "]"

/-- Rendering of a rational standing for a Python float (exact only for
integral values, which is all any theorem below evaluates). -/
def floatRepr (q : ℚ) : String :=
  if q.den = 1 then toString q.num ++ ".0" else toString q

/-- Python `str(...)` / f-string rendering of a JSON scalar. -/
def pyStr : JVal → String
  | .str s => s
  | .int n => toString n
  | .float q => floatRepr q
  | .bool b => if b then "True" else "False"
  | .null => "None"

/-- `expected_type.__name__`. -/
def typeName : PyType → String
  | .int => "int"
  | .float => "float"
  | .str => "str"

/-- Digits of a nonempty all-digit character list, as a number. -/
def parseDigits (cs : List Char) : Option Nat :=
  if cs = [] then none
  else if cs.all Char.isDigit then
    some (cs.foldl (fun acc c => acc * 10 + (c.toNat - 48)) 0)
  else none

/-- Strip leading and trailing whitespace (Python `str.strip()` as applied
by `int(...)` / `float(...)` to string arguments). -/
def stripWs (cs : List Char) : List Char :=
  ((cs.dropWhile Char.isWhitespace).reverse.dropWhile Char.isWhitespace).reverse

/-- Python `int(s)` on a string: optional sign then decimal digits
(underscore separators are not modelled). `none` models `ValueError`. -/
def parseIntStr (s : String) : Option Int :=
  match stripWs s.toList with
  | '+' :: rest => (parseDigits rest).map Int.ofNat
  | '-' :: rest => (parseDigits rest).map (fun n => -(n : Int))
  | rest => (parseDigits rest).map Int.ofNat

/-- Mantissa of a decimal float string: `digits`, `digits.digits`,
`digits.` or `.digits`, returned as a rational, together with the
unconsumed remainder. -/
def parseMantissa (cs : List Char) : Option (ℚ × List Char) :=
  let ip := cs.takeWhile Char.isDigit
  let cs₁ := cs.dropWhile Char.isDigit
  match cs₁ with
  | '.' :: rest =>
    let fp := rest.takeWhile Char.isDigit
    let cs₂ := rest.dropWhile Char.isDigit
    if ip = [] ∧ fp = [] then none
    else
      let ipv : ℚ := (ip.foldl (fun acc c => acc * 10 + (c.toNat - 48)) 0 : ℕ)
      let fpv : ℚ := (fp.foldl (fun acc c => acc * 10 + (c.toNat - 48)) 0 : ℕ)
      some (ipv + fpv / ((10 : ℚ) ^ fp.length), cs₂)
  | _ =>
    match parseDigits ip with
    | none => none
    | some n => some ((n : ℚ), cs₁)

/-- Optional exponent part `e±digits`; must consume the whole remainder. -/
def parseExponent (cs : List Char) : Option ℚ :=
  match cs with
  | [] => some 1
  | c :: rest =>
    if c = 'e' ∨ c = 'E' then
      match rest with
      | '+' :: ds => (parseDigits ds).map (fun n => (10 : ℚ) ^ n)
      | '-' :: ds => (parseDigits ds).map (fun n => ((10 : ℚ) ^ n)⁻¹)
      | ds => (parseDigits ds).map (fun n => (10 : ℚ) ^ n)
    else none

/-- Python `float(s)` on a string: optional sign, decimal mantissa,
optional exponent ("inf"/"nan" and underscores are not modelled).
`none` models `ValueError`. -/
def parseFloatStr (s : String) : Option ℚ :=
  let cs := stripWs s.toList
  let (sign, cs₁) : ℚ × List Char :=
    match cs with
    | '+' :: rest => (1, rest)
    | '-' :: rest => (-1, rest)
    | rest => (1, rest)
  match parseMantissa cs₁ with
  | none => none
  | some (m, rest) =>
    match parseExponent rest with
    | none => none
    | some e => some (sign * m * e)

/-- Truncation toward zero, Python `int(float)`. -/
def ratTrunc (q : ℚ) : Int := q.num.tdiv q.den

/-- Python `expected_type(value)` for a JSON scalar argument: `some` is a
successful conversion, `none` models `ValueError`/`TypeError` (the pair
caught in `check_data_types_and_values`). `bool` is an `int` subclass in
Python, hence the numeric conversions on `bool`. -/
def convert : PyType → JVal → Option PyVal
  | .int, .int n => some (.int n)
  | .int, .float q => some (.int (ratTrunc q))
  | .int, .str s => (parseIntStr s).map PyVal.int
  | .int, .bool b => some (.int (if b then 1 else 0))
  | .int, .null => none
  | .float, .int n => some (.float (n : ℚ))
  | .float, .float q => some (.float q)
  | .float, .str s => (parseFloatStr s).map PyVal.float
  | .float, .bool b => some (.float (if b then 1 else 0))
  | .float, .null => none
  | .str, v => some (.str (pyStr v))

/-- A converted value written back into the dict is again a JSON scalar. -/
def PyVal.toJVal : PyVal → JVal
  | .int n => .int n
  | .float q => .float q
  | .str s => .str s

/-- The `value < 0` test of src/app.py line 102 on a converted value. -/
def pyValNeg : PyVal → Bool
  | .int n => n < 0
  | .float q => q < 0
  | .str _ => false

/-- `expected_type in [int, float]`. -/
def isNumericTy (ty : PyType) : Bool :=
  match ty with
  | .int => true
  | .float => true
  | .str => false

/-- The `missing_fields` list comprehension of src/app.py line 65:
schema fields absent from the record, in schema iteration order. -/
def missingFields (r : Record) (s : Schema) : List String :=
  (s.map Prod.fst).filter (fun f => !hasKey r f)

/-- The `extra_fields` list comprehension of src/app.py line 66:
record keys absent from the schema, in record iteration order. -/
def extraFields (r : Record) (s : Schema) : List String :=
  (r.map Prod.fst).filter (fun f => !schemaHasKey s f)

/-- `input_data.get(field) is None`: absent key or a null value. -/
def isNoneAt (r : Record) (f : String) : Bool :=
  match lookupVal r f with
  | none => true
  | some .null => true
  | some _ => false

/-- The `null_fields` list comprehension of src/app.py line 75. -/
def nullFields (r : Record) (s : Schema) : List String :=
  (s.map Prod.fst).filter (fun f => isNoneAt r f)

/-- The loop body of `validate_input_data` from index `idx` on.  A batch
element is `none` when the JSON array slot held `null` (`input_data is
None`), `some r` when it held an object. -/
def validateFrom (s : Schema) : Nat → List (Option Record) → Bool × String
  | _, [] => (true, "")
  | idx, none :: _ => (false, "Record " ++ toString idx ++ ": No input data provided")
  | idx, some r :: rest =>
    let missing := missingFields r s
    let extra := extraFields r s
    if missing ≠ [] then
      (false, "Record " ++ toString idx ++ ": Missing required fields: " ++ pyListRepr missing)
    else if extra ≠ [] then
      (false, "Record " ++ toString idx ++ ": Unexpected fields provided: " ++ pyListRepr extra)
    else
      let nulls := nullFields r s
      if nulls ≠ [] then
        (false, "Record " ++ toString idx ++ ": Fields cannot be null: " ++ pyListRepr nulls)
      else validateFrom s (idx + 1) rest

/-- `validate_input_data` of src/app.py lines 56-79. -/
def validate_input_data (l : List (Option Record)) (s : Schema) : Bool × String :=
  validateFrom s 0 l

/-- The message `f"Field '{field}' cannot be null"` of src/app.py line 92. -/
def cannotNullMsg (f : String) : String := "Field '" ++ f ++ "' cannot be null"

/-- The message of src/app.py line 105. -/
def typeErrMsg (f : String) (ty : PyType) (v : JVal) : String :=
  "Field '" ++ f ++ "' must be of type " ++ typeName ty ++ " (got value '" ++ pyStr v ++ "')"

/-- The message of src/app.py line 103. -/
def nonNegMsg (f : String) : String := "Field '" ++ f ++ "' must be a non-negative number"

/-- The loop state of one record's pass through the inner field loop of
`check_data_types_and_values`: the (mutated) dict plus the two error
accumulators `type_errors` and `invalid_values`. -/
structure CheckState where
  record : Record
  typeErrors : List String
  invalidValues : List String
deriving DecidableEq

/-- The body of the inner `for field, expected_type in expected_features.items()`
loop of `check_data_types_and_values` (src/app.py lines 89-105): null guard,
conversion attempt, in-place write-back of the converted value, and the
non-negativity policy for numeric types. -/
def checkField (st : CheckState) (fld : String × PyType) : CheckState :=
  match lookupVal st.record fld.1 with
  | none =>
    { st with typeErrors := st.typeErrors ++ [cannotNullMsg fld.1] }
  | some .null =>
    { st with typeErrors := st.typeErrors ++ [cannotNullMsg fld.1] }
  | some v =>
    match convert fld.2 v with
    | none =>
      { st with typeErrors := st.typeErrors ++ [typeErrMsg fld.1 fld.2 v] }
    | some pv =>
      let record := updateField st.record fld.1 pv.toJVal
      if isNumericTy fld.2 && pyValNeg pv then
        { record := record, typeErrors := st.typeErrors,
          invalidValues := st.invalidValues ++ [nonNegMsg fld.1] }
      else
        { record := record, typeErrors := st.typeErrors,
          invalidValues := st.invalidValues }

/-- One record's full pass through the inner field loop. -/
def checkRecord (r : Record) (s : Schema) : CheckState :=
  s.foldl checkField { record := r, typeErrors := [], invalidValues := [] }

/-- The outer loop of `check_data_types_and_values` from index `idx` on.
Returns the batch as left by the in-place mutation together with the
(ok, message) pair the Python function returns. -/
def checkFrom (s : Schema) : Nat → List Record → List Record × Bool × String
  | _, [] => ([], true, "")
  | idx, r :: rest =>
    let st := checkRecord r s
    if st.typeErrors ≠ [] then
      (st.record :: rest, false,
        "Record " ++ toString idx ++ ": Invalid input format: Type errors - " ++
          String.intercalate ", " st.typeErrors)
    else if st.invalidValues ≠ [] then
      (st.record :: rest, false,
        "Record " ++ toString idx ++ ": Invalid values: " ++
          String.intercalate ", " st.invalidValues)
    else
      let out := checkFrom s (idx + 1) rest
      (st.record :: out.1, out.2)

/-- `check_data_types_and_values` of src/app.py lines 81-113.  The Python
function mutates its argument and returns (ok, message); the embedding
returns the mutated batch explicitly as the first component. -/
def check_data_types_and_values (l : List Record) (s : Schema) :
    List Record × Bool × String :=
  checkFrom s 0 l

/-- `convert_to_dataframe` of src/app.py lines 115-124: one row per record,
one column per schema field in schema order (`pd.DataFrame(...,
columns=expected_features.keys())`); a key a record lacks yields a missing
cell (`NaN`), modelled as `none`.  The `except` branch guards pandas
internals that the embedding does not model, so the error component is
always `none` here. -/
def convert_to_dataframe (l : List Record) (s : Schema) :
    List (List (Option JVal)) × Option String :=
  (l.map (fun r => s.map (fun fld => lookupVal r fld.1)), none)

/-- The opaque trained model: `model.predict` on the assembled table either
yields one number per row or raises, which the handler catches. -/
abbrev Model := List (List (Option JVal)) → Except String (List ℚ)

/-- The JSON body of a response from the /predict handler. -/
structure Response where
  status : Nat
  success : Bool
  error : Option String
  predictions : Option (List ℚ)
deriving DecidableEq

/-- The four pipeline stages of the /predict handler (steps 1-4 in
src/app.py lines 148-173). -/
inductive Stage where
  | validation | typecheck | assembly | modelPredict
deriving DecidableEq

/-- Error response helper: `jsonify({"success": False, "error": msg}), code`. -/
def errResponse (code : Nat) (msg : String) : Response :=
  { status := code, success := false, error := some msg, predictions := none }

/-- Steps 1-4 of the /predict handler (src/app.py lines 148-173), applied to
a normalized batch.  Besides the HTTP response it returns the list of stages
that were executed, in execution order.  A `none` batch element models a
`null` element of the JSON array; `check_data_types_and_values` is only
reached once validation has ruled those out. -/
def runPipeline (model : Model) (s : Schema) (records : List (Option Record)) :
    Response × List Stage :=
  let v := validate_input_data records s
  if v.1 = false then (errResponse 400 v.2, [.validation])
  else
    let recs := records.map (fun o => o.getD [])
    let c := check_data_types_and_values recs s
    if c.2.1 = false then (errResponse 400 c.2.2, [.validation, .typecheck])
    else
      let d := convert_to_dataframe c.1 s
      match d.2 with
      | some e =>
        (errResponse 400 ("Invalid input format: " ++ e),
          [.validation, .typecheck, .assembly])
      | none =>
        match model d.1 with
        | .ok preds =>
          ({ status := 200, success := true, error := none, predictions := some preds },
            [.validation, .typecheck, .assembly, .modelPredict])
        | .error e =>
          (errResponse 500 ("Prediction failed: " ++ e),
            [.validation, .typecheck, .assembly, .modelPredict])

/-- The parsed JSON body of a /predict request, after `request.get_json()`:
a single object, an array (whose elements the pipeline can reach only as
objects or nulls; any other element type crashes the source with an uncaught
`TypeError` and is outside every claim), or some other JSON value. -/
inductive ReqBody where
  | obj : Record → ReqBody
  | arr : List (Option Record) → ReqBody
  | other : ReqBody

/-- The /predict handler (src/app.py lines 126-173).  The `none` argument
models the two cases that surface as "Invalid JSON input format": an
unparsable body (`get_json` raises `BadRequest`) and a body that parses to
`None`, both handled by the try/except at lines 130-137.  The stage list is
the stages of the validation/prediction pipeline that ran. -/
def predict (model : Model) (s : Schema) (body : Option ReqBody) :
    Response × List Stage :=
  match body with
  | none => (errResponse 400 "Invalid JSON input format", [])
  | some .other =>
    (errResponse 400 "Input data must be a list of records or a single record object.", [])
  | some (.obj r) => runPipeline model s [some r]
  | some (.arr l) => runPipeline model s l

/-- The feature schema the deployed app loads from features.json, as
exercised by the repository's tests: seven integer features. -/
def schemaApp : Schema :=
  [("LotArea", .int), ("YearBuilt", .int), ("1stFlrSF", .int), ("2ndFlrSF", .int),
    ("FullBath", .int), ("BedroomAbvGr", .int), ("TotRmsAbvGrd", .int)]

/-!
Spec-side reference definitions.  The definitions below restate, directly in
the words of spec.md sections 4.2 and 4.3, what one record's validation and
type-check outcome is; the refinement theorems compare them with the
source-derived `validate_input_data` / `check_data_types_and_values` above.
-/

/-- `input_data.get(field)` restricted to usable values: `none` when the key
is absent or bound to null (both of which Python's `value is None` treats
alike), `some v` otherwise. -/
def pyGetVal (r : Record) (f : String) : Option JVal :=
  match lookupVal r f with
  | none => none
  | some .null => none
  | some v => some v

/-- Spec 4.3, one field of one record: the type error this field
contributes, if any (null guard, then conversion attempt). -/
def fieldTypeError (r : Record) (fld : String × PyType) : Option String :=
  match pyGetVal r fld.1 with
  | none => some (cannotNullMsg fld.1)
  | some v =>
    match convert fld.2 v with
    | none => some (typeErrMsg fld.1 fld.2 v)
    | some _ => none

/-- Spec 4.3, one field of one record: the value (non-negativity) error this
field contributes, if any. -/
def fieldValueError (r : Record) (fld : String × PyType) : Option String :=
  match pyGetVal r fld.1 with
  | none => none
  | some v =>
    match convert fld.2 v with
    | none => none
    | some pv =>
      if isNumericTy fld.2 && pyValNeg pv then some (nonNegMsg fld.1) else none

/-- The converted value a field would be rewritten to, when conversion
succeeds. -/
def coercedVal (r : Record) (fld : String × PyType) : Option PyVal :=
  (pyGetVal r fld.1).bind (convert fld.2)

/-- Spec 4.3: ALL type errors of one record, collected over every schema
field in schema order, each field judged against the original record (no
field-level short-circuit). -/
def recTypeErrors (r : Record) (s : Schema) : List String :=
  s.filterMap (fieldTypeError r)

/-- Spec 4.3: ALL value errors of one record, collected over every schema
field in schema order. -/
def recValueErrors (r : Record) (s : Schema) : List String :=
  s.filterMap (fieldValueError r)

/-- Spec 4.2, one record: the first failing presence check in the fixed
order whole-record-null, missing fields, extra fields, null values; `none`
when every check passes. -/
def recordError (idx : Nat) (o : Option Record) (s : Schema) : Option String :=
  match o with
  | none => some ("Record " ++ toString idx ++ ": No input data provided")
  | some r =>
    if missingFields r s ≠ [] then
      some ("Record " ++ toString idx ++ ": Missing required fields: " ++
        pyListRepr (missingFields r s))
    else if extraFields r s ≠ [] then
      some ("Record " ++ toString idx ++ ": Unexpected fields provided: " ++
        pyListRepr (extraFields r s))
    else if nullFields r s ≠ [] then
      some ("Record " ++ toString idx ++ ": Fields cannot be null: " ++
        pyListRepr (nullFields r s))
    else none

/-- Spec 4.2, batch level: the error message of the first (lowest-index)
record that fails a presence check; records after it are not consulted. -/
def firstValidationError (s : Schema) : Nat → List (Option Record) → Option String
  | _, [] => none
  | idx, o :: rest =>
    match recordError idx o s with
    | some m => some m
    | none => firstValidationError s (idx + 1) rest

/-- Spec 4.3, one record's verdict: type errors joined take precedence;
value errors are reported only when there are zero type errors. -/
def recCheckError (idx : Nat) (r : Record) (s : Schema) : Option String :=
  if recTypeErrors r s ≠ [] then
    some ("Record " ++ toString idx ++ ": Invalid input format: Type errors - " ++
      String.intercalate ", " (recTypeErrors r s))
  else if recValueErrors r s ≠ [] then
    some ("Record " ++ toString idx ++ ": Invalid values: " ++
      String.intercalate ", " (recValueErrors r s))
  else none

/-- Spec 4.3, batch level: the verdict of the first record with any error;
records after it are not consulted. -/
def firstCheckError (s : Schema) : Nat → List Record → Option String
  | _, [] => none
  | idx, r :: rest =>
    match recCheckError idx r s with
    | some m => some m
    | none => firstCheckError s (idx + 1) rest

/-- A field is good when its raw value is present, non-null, converts to the
declared type, and the converted value is not negative. -/
def goodField (r : Record) (fld : String × PyType) : Bool :=
  match pyGetVal r fld.1 with
  | none => false
  | some v =>
    match convert fld.2 v with
    | none => false
    | some pv => !pyValNeg pv

/-- A record is good when its key set is contained in the schema's and every
schema field is good; together these make the key sets equal. -/
def goodRecord (r : Record) (s : Schema) : Bool :=
  (r.map Prod.fst).all (fun f => schemaHasKey s f) && s.all (goodField r)

/-- A batch element is good when it is an object and that object is good. -/
def goodElem (o : Option Record) (s : Schema) : Bool :=
  match o with
  | none => false
  | some r => goodRecord r s

/-- One record makes `check_data_types_and_values` stop with an error. -/
def recFails (r : Record) (s : Schema) : Bool :=
  !(checkRecord r s).typeErrors.isEmpty || !(checkRecord r s).invalidValues.isEmpty

/-- A trivial stand-in model used to instantiate theorems on concrete
inputs: one zero prediction per row. -/
def constModel : Model :=
  fun rows => Except.ok (rows.map (fun _ => (0 : ℚ)))

/-- A well-formed example record: the spec §8 example input. -/
def recEx : Record :=
  [("LotArea", .int 8450), ("YearBuilt", .int 2003), ("1stFlrSF", .int 856),
    ("2ndFlrSF", .int 854), ("FullBath", .int 2), ("BedroomAbvGr", .int 3),
    ("TotRmsAbvGrd", .int 8)]

/-- A record with both a type error ("LotArea" does not parse as an int) and
a value error ("YearBuilt" is negative). -/
def recMixed : Record :=
  [("LotArea", .str "eighty_four_fifty"), ("YearBuilt", .int (-5)),
    ("1stFlrSF", .int 856), ("2ndFlrSF", .int 854), ("FullBath", .int 2),
    ("BedroomAbvGr", .int 3), ("TotRmsAbvGrd", .int 8)]

/-- The invalid-values test input of tests/test_app.py: "LotArea" is -100. -/
def recNeg : Record :=
  [("LotArea", .int (-100)), ("YearBuilt", .int 2003), ("1stFlrSF", .int 856),
    ("2ndFlrSF", .int 854), ("FullBath", .int 2), ("BedroomAbvGr", .int 3),
    ("TotRmsAbvGrd", .int 8)]

/-- A one-field integer schema for concrete instantiations. -/
def sEx : Schema := [("a", PyType.int)]

/-- A two-record batch over `sEx`: the first coerces ("7" becomes 7), the
second fails its type check. -/
def lEx : List Record := [[("a", JVal.str "7")], [("a", JVal.str "x")]]

/-- The batch as left in place by the failed check: record 0 coerced,
record 1 unchanged. -/
def lExOut : List Record := [[("a", JVal.int 7)], [("a", JVal.str "x")]]

/-- The message of the failed check of `lEx`. -/
def mEx : String :=
  "Record 1: Invalid input format: Type errors - Field 'a' must be of type int (got value 'x')"

/-- A concrete inner-loop state holding a boolean in field "a". -/
def stEx : CheckState :=
  { record := [("a", JVal.bool true)], typeErrors := [], invalidValues := [] }

/-! Basic association-list lemmas. -/

theorem lookupVal_updateField (r : Record) (f : String) (v : JVal) (g : String) :
    lookupVal (updateField r f v) g = if f = g then some v else lookupVal r g := by
  induction r with
  | nil =>
    simp only [updateField, lookupVal]
  | cons p rest ih =>
    obtain ⟨k, w⟩ := p
    by_cases hk : k = f
    · subst hk
      simp only [updateField, if_pos rfl, lookupVal]
      by_cases hg : k = g
      · simp [hg]
      · simp [hg]
    · simp only [updateField, if_neg hk, lookupVal, ih]
      by_cases hg : k = g
      · subst hg
        have hfg : ¬ f = k := fun h => hk h.symm
        simp [hfg]
      · simp [hg]

theorem hasKey_eq_isSome (r : Record) (f : String) :
    hasKey r f = (lookupVal r f).isSome := by
  induction r with
  | nil => simp [hasKey, lookupVal]
  | cons p rest ih =>
    obtain ⟨k, w⟩ := p
    by_cases hk : k = f
    · simp [hasKey, lookupVal, hk]
    · simp [hasKey, lookupVal, hk, ih]

/-! Characterization of the per-field step `checkField`. -/

theorem checkField_char (st : CheckState) (fld : String × PyType) :
    checkField st fld =
      match pyGetVal st.record fld.1 with
      | none => { st with typeErrors := st.typeErrors ++ [cannotNullMsg fld.1] }
      | some v =>
        match convert fld.2 v with
        | none => { st with typeErrors := st.typeErrors ++ [typeErrMsg fld.1 fld.2 v] }
        | some pv =>
          { record := updateField st.record fld.1 pv.toJVal,
            typeErrors := st.typeErrors,
            invalidValues := st.invalidValues ++
              (if isNumericTy fld.2 && pyValNeg pv then [nonNegMsg fld.1] else []) } := by
  unfold checkField pyGetVal
  cases hl : lookupVal st.record fld.1 with
  | none => rfl
  | some v =>
    cases v with
    | str a =>
      dsimp only
      cases hc : convert fld.2 (JVal.str a) with
      | none => rfl
      | some pv =>
        dsimp only
        cases hb : isNumericTy fld.2 && pyValNeg pv <;> simp
    | int n =>
      dsimp only
      cases hc : convert fld.2 (JVal.int n) with
      | none => rfl
      | some pv =>
        dsimp only
        cases hb : isNumericTy fld.2 && pyValNeg pv <;> simp
    | float q =>
      dsimp only
      cases hc : convert fld.2 (JVal.float q) with
      | none => rfl
      | some pv =>
        dsimp only
        cases hb : isNumericTy fld.2 && pyValNeg pv <;> simp
    | bool b =>
      dsimp only
      cases hc : convert fld.2 (JVal.bool b) with
      | none => rfl
      | some pv =>
        dsimp only
        cases hb : isNumericTy fld.2 && pyValNeg pv <;> simp
    | null => rfl

theorem checkField_typeErrors (st : CheckState) (fld : String × PyType) :
    (checkField st fld).typeErrors =
      st.typeErrors ++ (fieldTypeError st.record fld).toList := by
  rw [checkField_char]
  unfold fieldTypeError
  cases pyGetVal st.record fld.1 with
  | none => simp
  | some v =>
    dsimp only
    cases convert fld.2 v with
    | none => simp
    | some pv => simp

theorem checkField_invalidValues (st : CheckState) (fld : String × PyType) :
    (checkField st fld).invalidValues =
      st.invalidValues ++ (fieldValueError st.record fld).toList := by
  rw [checkField_char]
  unfold fieldValueError
  cases pyGetVal st.record fld.1 with
  | none => simp
  | some v =>
    dsimp only
    cases convert fld.2 v with
    | none => simp
    | some pv =>
      dsimp only
      cases hb : isNumericTy fld.2 && pyValNeg pv <;> simp

theorem checkField_record_lookup (st : CheckState) (fld : String × PyType) (g : String) :
    lookupVal (checkField st fld).record g =
      if fld.1 = g then
        match coercedVal st.record fld with
        | some pv => some pv.toJVal
        | none => lookupVal st.record g
      else lookupVal st.record g := by
  rw [checkField_char]
  unfold coercedVal
  cases hv : pyGetVal st.record fld.1 with
  | none =>
    dsimp only
    split <;> rfl
  | some v =>
    dsimp only
    cases hc : convert fld.2 v with
    | none =>
      simp only [Option.some_bind, hc]
      split <;> rfl
    | some pv =>
      simp only [Option.some_bind, hc, lookupVal_updateField]

theorem fieldTypeError_congr {a b : Record} (fld : String × PyType)
    (h : lookupVal a fld.1 = lookupVal b fld.1) :
    fieldTypeError a fld = fieldTypeError b fld := by
  unfold fieldTypeError pyGetVal
  rw [h]

theorem fieldValueError_congr {a b : Record} (fld : String × PyType)
    (h : lookupVal a fld.1 = lookupVal b fld.1) :
    fieldValueError a fld = fieldValueError b fld := by
  unfold fieldValueError pyGetVal
  rw [h]

theorem coercedVal_congr {a b : Record} (fld : String × PyType)
    (h : lookupVal a fld.1 = lookupVal b fld.1) :
    coercedVal a fld = coercedVal b fld := by
  unfold coercedVal pyGetVal
  rw [h]

theorem pyGetVal_congr {a b : Record} (f : String)
    (h : lookupVal a f = lookupVal b f) : pyGetVal a f = pyGetVal b f := by
  unfold pyGetVal
  rw [h]

/-! Fold lemmas over the inner field loop. -/

theorem recTypeErrors_cons (r : Record) (fld : String × PyType)
    (tl : List (String × PyType)) :
    recTypeErrors r (fld :: tl) = (fieldTypeError r fld).toList ++ recTypeErrors r tl := by
  unfold recTypeErrors
  cases h : fieldTypeError r fld <;> simp [List.filterMap_cons, h]

theorem recValueErrors_cons (r : Record) (fld : String × PyType)
    (tl : List (String × PyType)) :
    recValueErrors r (fld :: tl) = (fieldValueError r fld).toList ++ recValueErrors r tl := by
  unfold recValueErrors
  cases h : fieldValueError r fld <;> simp [List.filterMap_cons, h]

theorem foldl_checkField_record_preserve (fs : List (String × PyType)) :
    ∀ (st : CheckState) (g : String), (∀ fld ∈ fs, fld.1 ≠ g) →
      lookupVal (fs.foldl checkField st).record g = lookupVal st.record g := by
  induction fs with
  | nil => intro st g _; rfl
  | cons hd tl ih =>
    intro st g h
    have h1 : hd.1 ≠ g := h hd (List.mem_cons_self hd tl)
    have h2 : ∀ fld ∈ tl, fld.1 ≠ g := fun fld hf => h fld (List.mem_cons_of_mem hd hf)
    simp only [List.foldl_cons]
    rw [ih (checkField st hd) g h2, checkField_record_lookup, if_neg h1]

theorem foldl_checkField_errors (r : Record) (fs : List (String × PyType)) :
    ∀ (st : CheckState),
      (fs.map Prod.fst).Nodup →
      (∀ g ∈ fs.map Prod.fst, lookupVal st.record g = lookupVal r g) →
      (fs.foldl checkField st).typeErrors = st.typeErrors ++ recTypeErrors r fs ∧
      (fs.foldl checkField st).invalidValues = st.invalidValues ++ recValueErrors r fs := by
  induction fs with
  | nil => intro st _ _; simp [recTypeErrors, recValueErrors]
  | cons hd tl ih =>
    intro st hnd hag
    have hcons : (hd.1 :: tl.map Prod.fst).Nodup := by simpa using hnd
    have hhdnot : hd.1 ∉ tl.map Prod.fst := (List.nodup_cons.mp hcons).1
    have hnd' : (tl.map Prod.fst).Nodup := (List.nodup_cons.mp hcons).2
    have hhd : lookupVal st.record hd.1 = lookupVal r hd.1 := hag hd.1 (by simp)
    have hag' : ∀ g ∈ tl.map Prod.fst,
        lookupVal (checkField st hd).record g = lookupVal r g := by
      intro g hg
      have hne : hd.1 ≠ g := fun he => hhdnot (he ▸ hg)
      rw [checkField_record_lookup, if_neg hne]
      exact hag g (by simp [hg])
    obtain ⟨ht, hi⟩ := ih (checkField st hd) hnd' hag'
    simp only [List.foldl_cons]
    constructor
    · rw [ht, checkField_typeErrors, fieldTypeError_congr hd hhd,
        recTypeErrors_cons, List.append_assoc]
    · rw [hi, checkField_invalidValues, fieldValueError_congr hd hhd,
        recValueErrors_cons, List.append_assoc]

theorem foldl_checkField_coerce (r : Record) (fs : List (String × PyType)) :
    ∀ (st : CheckState) (f : String) (ty : PyType) (v : JVal) (pv : PyVal),
      (fs.map Prod.fst).Nodup →
      (∀ g ∈ fs.map Prod.fst, lookupVal st.record g = lookupVal r g) →
      (f, ty) ∈ fs → pyGetVal r f = some v → convert ty v = some pv →
      lookupVal (fs.foldl checkField st).record f = some pv.toJVal := by
  induction fs with
  | nil => intro st f ty v pv _ _ hmem _ _; cases hmem
  | cons hd tl ih =>
    intro st f ty v pv hnd hag hmem hv hc
    have hcons : (hd.1 :: tl.map Prod.fst).Nodup := by simpa using hnd
    have hhdnot : hd.1 ∉ tl.map Prod.fst := (List.nodup_cons.mp hcons).1
    have hnd' : (tl.map Prod.fst).Nodup := (List.nodup_cons.mp hcons).2
    simp only [List.foldl_cons]
    rcases List.mem_cons.mp hmem with heq | hmemtl
    · cases heq
      have hne : ∀ fld ∈ tl, fld.1 ≠ f := by
        intro fld hf he
        apply hhdnot
        show f ∈ tl.map Prod.fst
        rw [← he]
        exact List.mem_map_of_mem Prod.fst hf
      rw [foldl_checkField_record_preserve tl (checkField st (f, ty)) f hne]
      rw [checkField_record_lookup]
      have hg : pyGetVal st.record f = some v := by
        rw [pyGetVal_congr f (hag f (by simp))]
        exact hv
      unfold coercedVal
      rw [if_pos rfl, hg, Option.some_bind, hc]
    · have hag' : ∀ g ∈ tl.map Prod.fst,
          lookupVal (checkField st hd).record g = lookupVal r g := by
        intro g hg
        have hne : hd.1 ≠ g := fun he => hhdnot (he ▸ hg)
        rw [checkField_record_lookup, if_neg hne]
        exact hag g (by simp [hg])
      exact ih (checkField st hd) f ty v pv hnd' hag' hmemtl hv hc

/-! Corollaries for one whole record. -/

theorem checkRecord_typeErrors (r : Record) (s : Schema)
    (hnd : (s.map Prod.fst).Nodup) :
    (checkRecord r s).typeErrors = recTypeErrors r s := by
  have h := foldl_checkField_errors r s
    { record := r, typeErrors := [], invalidValues := [] } hnd (fun _ _ => rfl)
  simpa [checkRecord] using h.1

theorem checkRecord_invalidValues (r : Record) (s : Schema)
    (hnd : (s.map Prod.fst).Nodup) :
    (checkRecord r s).invalidValues = recValueErrors r s := by
  have h := foldl_checkField_errors r s
    { record := r, typeErrors := [], invalidValues := [] } hnd (fun _ _ => rfl)
  simpa [checkRecord] using h.2

theorem checkRecord_coerced (r : Record) (s : Schema) (f : String) (ty : PyType)
    (v : JVal) (pv : PyVal) (hnd : (s.map Prod.fst).Nodup) ( hmem : (f, ty) ∈ s)
    (hv : pyGetVal r f = some v) (hc : convert ty v = some pv) :
    lookupVal (checkRecord r s).record f = some pv.toJVal :=
  foldl_checkField_coerce r s
    { record := r, typeErrors := [], invalidValues := [] } f ty v pv hnd
    (fun _ _ => rfl) hmem hv hc

/-! Refinement of `validate_input_data` by the spec-side first-error scan. -/

theorem validateFrom_eq (s : Schema) :
    ∀ (idx : Nat) (l : List (Option Record)),
      validateFrom s idx l =
        match firstValidationError s idx l with
        | none => (true, "")
        | some m => (false, m) := by
  intro idx l
  induction l generalizing idx with
  | nil => rfl
  | cons o rest ih =>
    cases o with
    | none => rfl
    | some r =>
      by_cases hm : missingFields r s = []
      · by_cases hx : extraFields r s = []
        · by_cases hn : nullFields r s = []
          · simp [validateFrom, firstValidationError, recordError, hm, hx, hn, ih]
          · simp [validateFrom, firstValidationError, recordError, hm, hx, hn]
        · simp [validateFrom, firstValidationError, recordError, hm, hx]
      · simp [validateFrom, firstValidationError, recordError, hm]

theorem firstValidationError_append (s : Schema) :
    ∀ (l₁ : List (Option Record)) (idx : Nat) (o : Option Record)
      (l₂ : List (Option Record)) (m : String),
      firstValidationError s idx l₁ = none →
      recordError (idx + l₁.length) o s = some m →
      firstValidationError s idx (l₁ ++ o :: l₂) = some m := by
  intro l₁
  induction l₁ with
  | nil =>
    intro idx o l₂ m _ h₂
    simp only [List.length_nil, Nat.add_zero] at h₂
    simp only [List.nil_append]
    unfold firstValidationError
    rw [h₂]
  | cons h t ih =>
    intro idx o l₂ m h₁ h₂
    rw [List.cons_append]
    unfold firstValidationError at h₁ ⊢
    cases hr : recordError idx h s with
    | some m' =>
      rw [hr] at h₁
      exact absurd h₁ (by simp)
    | none =>
      rw [hr] at h₁
      simp only at h₁
      simp only
      apply ih (idx + 1) o l₂ m h₁
      have harith : idx + 1 + t.length = idx + (h :: t).length := by
        simp only [List.length_cons]
        omega
      rw [harith]
      exact h₂

theorem firstValidationError_none (s : Schema) :
    ∀ (l : List (Option Record)),
      (∀ o ∈ l, ∀ i, recordError i o s = none) →
      ∀ idx, firstValidationError s idx l = none := by
  intro l
  induction l with
  | nil => intro _ idx; rfl
  | cons o rest ih =>
    intro h idx
    unfold firstValidationError
    rw [h o (by simp) idx]
    exact ih (fun o' ho' => h o' (by simp [ho'])) (idx + 1)

/-! Refinement of `check_data_types_and_values` by the spec-side scan. -/

theorem checkFrom_eq (s : Schema) (hnd : (s.map Prod.fst).Nodup) :
    ∀ (idx : Nat) (l : List Record),
      (checkFrom s idx l).2 =
        match firstCheckError s idx l with
        | none => (true, "")
        | some m => (false, m) := by
  intro idx l
  induction l generalizing idx with
  | nil => rfl
  | cons r rest ih =>
    by_cases ht : recTypeErrors r s = []
    · by_cases hv : recValueErrors r s = []
      · simp [checkFrom, firstCheckError, recCheckError,
          checkRecord_typeErrors r s hnd, checkRecord_invalidValues r s hnd, ht, hv, ih]
      · simp [checkFrom, firstCheckError, recCheckError,
          checkRecord_typeErrors r s hnd, checkRecord_invalidValues r s hnd, ht, hv]
    · simp [checkFrom, firstCheckError, recCheckError,
        checkRecord_typeErrors r s hnd, checkRecord_invalidValues r s hnd, ht]

theorem firstCheckError_append (s : Schema) :
    ∀ (l₁ : List Record) (idx : Nat) (r : Record) (l₂ : List Record) (m : String),
      firstCheckError s idx l₁ = none →
      recCheckError (idx + l₁.length) r s = some m →
      firstCheckError s idx (l₁ ++ r :: l₂) = some m := by
  intro l₁
  induction l₁ with
  | nil =>
    intro idx r l₂ m _ h₂
    simp only [List.length_nil, Nat.add_zero] at h₂
    simp only [List.nil_append]
    unfold firstCheckError
    rw [h₂]
  | cons h t ih =>
    intro idx r l₂ m h₁ h₂
    rw [List.cons_append]
    unfold firstCheckError at h₁ ⊢
    cases hr : recCheckError idx h s with
    | some m' =>
      rw [hr] at h₁
      exact absurd h₁ (by simp)
    | none =>
      rw [hr] at h₁
      simp only at h₁
      simp only
      apply ih (idx + 1) r l₂ m h₁
      have harith : idx + 1 + t.length = idx + (h :: t).length := by
        simp only [List.length_cons]
        omega
      rw [harith]
      exact h₂

theorem firstCheckError_none (s : Schema) :
    ∀ (l : List Record),
      (∀ r ∈ l, ∀ i, recCheckError i r s = none) →
      ∀ idx, firstCheckError s idx l = none := by
  intro l
  induction l with
  | nil => intro _ idx; rfl
  | cons r rest ih =>
    intro h idx
    unfold firstCheckError
    rw [h r (by simp) idx]
    exact ih (fun r' hr' => h r' (by simp [hr'])) (idx + 1)

theorem checkFrom_fail_shape (s : Schema) :
    ∀ (l : List Record) (idx : Nat) (l' : List Record) (m : String),
      checkFrom s idx l = (l', false, m) →
      ∃ i, i < l.length ∧
        (∀ j, j < i → recFails (l.getD j []) s = false) ∧
        recFails (l.getD i []) s = true ∧
        l' = (l.take (i + 1)).map (fun r => (checkRecord r s).record) ++ l.drop (i + 1) := by
  intro l
  induction l with
  | nil =>
    intro idx l' m h
    exact absurd h (by simp [checkFrom])
  | cons r rest ih =>
    intro idx l' m h
    by_cases ht : (checkRecord r s).typeErrors = []
    · by_cases hv : (checkRecord r s).invalidValues = []
      · rcases hck : checkFrom s (idx + 1) rest with ⟨o1, ob, om⟩
        simp only [checkFrom, ht, hv, hck] at h
        simp only [ne_eq, not_true_eq_false, if_false, if_neg] at h
        simp only [Prod.mk.injEq] at h
        obtain ⟨hA, hB, hC⟩ := h
        obtain ⟨i, hi, hpre, hfail, hshape⟩ :=
          ih (idx + 1) o1 m (by rw [hck, hB, hC])
        refine ⟨i + 1, by simpa using Nat.succ_lt_succ hi, ?_, ?_, ?_⟩
        · intro j hj
          cases j with
          | zero => simp [recFails, ht, hv]
          | succ k =>
            have : k < i := by omega
            simpa using hpre k this
        · simpa using hfail
        · rw [← hA, hshape]
          simp
      · refine ⟨0, by simp, by omega, ?_, ?_⟩
        · simp [recFails, hv]
        · simp [checkFrom, ht, hv, Prod.mk.injEq] at h
          rw [← h.1]
          simp
    · refine ⟨0, by simp, by omega, ?_, ?_⟩
      · simp [recFails, ht]
      · simp [checkFrom, ht, Prod.mk.injEq] at h
        rw [← h.1]
        simp

/-! Pipeline stage helpers. -/

theorem runPipeline_validate_fail (model : Model) (s : Schema)
    (l : List (Option Record)) (h : (validate_input_data l s).1 = false) :
    runPipeline model s l =
      (errResponse 400 (validate_input_data l s).2, [Stage.validation]) := by
  unfold runPipeline
  rw [if_pos h]

theorem runPipeline_check_fail (model : Model) (s : Schema)
    (l : List (Option Record)) (hv : (validate_input_data l s).1 = true)
    (hc : (check_data_types_and_values (l.map (fun o => o.getD [])) s).2.1 = false) :
    runPipeline model s l =
      (errResponse 400 (check_data_types_and_values (l.map (fun o => o.getD [])) s).2.2,
        [Stage.validation, Stage.typecheck]) := by
  unfold runPipeline
  rw [if_neg (by simp [hv]), if_pos hc]

theorem runPipeline_trace_all (model : Model) (s : Schema)
    (l : List (Option Record)) (hv : (validate_input_data l s).1 = true)
    (hc : (check_data_types_and_values (l.map (fun o => o.getD [])) s).2.1 = true) :
    (runPipeline model s l).2 =
      [Stage.validation, Stage.typecheck, Stage.assembly, Stage.modelPredict] := by
  unfold runPipeline
  rw [if_neg (by simp [hv]), if_neg (by simp [hc])]
  dsimp only [convert_to_dataframe]
  split <;> rfl

/-- C5: a single JSON object request body is handled exactly like the
one-element array containing it: the same validation outcome, the same
response (error message or predictions), and the same stages run. -/
theorem predict_obj_eq_singleton_arr (model : Model) (s : Schema) (r : Record) :
    predict model s (some (ReqBody.obj r)) =
      predict model s (some (ReqBody.arr [some r])) := rfl

/-- C7: a request whose body is not parseable as JSON yields HTTP 400 with
"success" false and "error" exactly "Invalid JSON input format". -/
theorem predict_invalid_json_response (model : Model) (s : Schema) :
    (predict model s none).1.status = 400 ∧
    (predict model s none).1.success = false ∧
    (predict model s none).1.error = some "Invalid JSON input format" :=
  ⟨rfl, rfl, rfl⟩

/-- C8: the /predict pipeline stages run strictly in the order validation,
type/value checking, assembly, model prediction (the stage list is always an
initial segment of that order); a validation failure stops the request with
only stage 1 run, a type/value failure with only stages 1-2 run, and when
both checks pass all four stages run. -/
theorem pipeline_stages_fail_fast (model : Model) (s : Schema)
    (l : List (Option Record)) :
    (∃ t, (runPipeline model s l).2 ++ t =
      [Stage.validation, Stage.typecheck, Stage.assembly, Stage.modelPredict]) ∧
    ((validate_input_data l s).1 = false →
      runPipeline model s l =
        (errResponse 400 (validate_input_data l s).2, [Stage.validation])) ∧
    ((validate_input_data l s).1 = true →
      (check_data_types_and_values (l.map (fun o => o.getD [])) s).2.1 = false →
      runPipeline model s l =
        (errResponse 400 (check_data_types_and_values (l.map (fun o => o.getD [])) s).2.2,
          [Stage.validation, Stage.typecheck])) ∧
    ((validate_input_data l s).1 = true →
      (check_data_types_and_values (l.map (fun o => o.getD [])) s).2.1 = true →
      (runPipeline model s l).2 =
        [Stage.validation, Stage.typecheck, Stage.assembly, Stage.modelPredict]) := by
  by_cases hvb : (validate_input_data l s).1 = false
  · have hrun := runPipeline_validate_fail model s l hvb
    refine ⟨⟨[Stage.typecheck, Stage.assembly, Stage.modelPredict], by rw [hrun]; rfl⟩,
      fun _ => hrun, fun hv _ => absurd hvb (by simp [hv]),
      fun hv _ => absurd hvb (by simp [hv])⟩
  · have hvt : (validate_input_data l s).1 = true := by
      cases hx : (validate_input_data l s).1
      · exact absurd hx hvb
      · rfl
    by_cases hcb : (check_data_types_and_values (l.map (fun o => o.getD [])) s).2.1 = false
    · have hrun := runPipeline_check_fail model s l hvt hcb
      refine ⟨⟨[Stage.assembly, Stage.modelPredict], by rw [hrun]; rfl⟩,
        fun hf => absurd hf hvb, fun _ _ => hrun,
        fun _ hct => absurd hcb (by simp [hct])⟩
    · have hct : (check_data_types_and_values (l.map (fun o => o.getD [])) s).2.1 = true := by
        cases hx : (check_data_types_and_values (l.map (fun o => o.getD [])) s).2.1
        · exact absurd hx hcb
        · rfl
      have hrun := runPipeline_trace_all model s l hvt hct
      refine ⟨⟨[], by rw [hrun]; rfl⟩, fun hf => absurd hf hvb,
        fun _ hcf => absurd hcf hcb, fun _ _ => hrun⟩


/-- C8 witness: on a concrete batch whose only record is the empty object,
validation fails and the pipeline stops after stage 1. -/
theorem pipeline_stages_fail_fast_witness :
    runPipeline constModel schemaApp [some []] =
      (errResponse 400 ("Record 0: Missing required fields: " ++
        pyListRepr (schemaApp.map Prod.fst)), [Stage.validation]) := by
  have h := (pipeline_stages_fail_fast constModel schemaApp [some []]).2.1 (by rfl)
  rw [h]
  rfl

/-- C1: `validate_input_data` refines the spec-side scan `firstValidationError`
built from per-record `recordError` (whole-record null, then missing, then
extra, then null-valued fields, short-circuiting at the first failing check);
the whole batch aborts with exactly the first offending record's message, and
the records after the first offending one are never examined: they can be
replaced by anything without changing the result. -/
theorem validate_first_error_short_circuit (s : Schema) :
    (∀ l : List (Option Record),
      validate_input_data l s =
        match firstValidationError s 0 l with
        | none => (true, "")
        | some m => (false, m)) ∧
    (∀ (l₁ : List (Option Record)) (o : Option Record)
      (l₂ l₂' : List (Option Record)) (m : String),
      firstValidationError s 0 l₁ = none →
      recordError l₁.length o s = some m →
      validate_input_data (l₁ ++ o :: l₂) s = (false, m) ∧
      validate_input_data (l₁ ++ o :: l₂) s = validate_input_data (l₁ ++ o :: l₂') s) := by
  constructor
  · intro l
    exact validateFrom_eq s 0 l
  · intro l₁ o l₂ l₂' m h₁ h₂
    have k₂ : recordError (0 + l₁.length) o s = some m := by simpa using h₂
    have e1 : validate_input_data (l₁ ++ o :: l₂) s = (false, m) := by
      unfold validate_input_data
      rw [validateFrom_eq, firstValidationError_append s l₁ 0 o l₂ m h₁ k₂]
    have e2 : validate_input_data (l₁ ++ o :: l₂') s = (false, m) := by
      unfold validate_input_data
      rw [validateFrom_eq, firstValidationError_append s l₁ 0 o l₂' m h₁ k₂]
    exact ⟨e1, e1.trans e2.symm⟩

/-- C1 witness: on a concrete batch whose second record is the empty object,
the batch fails with record 1's missing-fields message and the third record
can be dropped without changing the outcome. -/
theorem validate_first_error_short_circuit_witness :
    validate_input_data [some recEx, some [], some [("x", JVal.null)]] schemaApp =
      validate_input_data [some recEx, some []] schemaApp := by
  have h := (validate_first_error_short_circuit schemaApp).2
    [some recEx] (some []) [some [("x", JVal.null)]] []
    ("Record 1: Missing required fields: " ++ pyListRepr (schemaApp.map Prod.fst))
    (by rfl) (by rfl)
  exact h.2

/-- C3: when validation reaches a record that is missing at least one schema
field, the batch fails with exactly the missing-fields message for that
record, the missing fields listed in schema iteration (insertion) order. -/
theorem validate_missing_fields_message (s : Schema)
    (l₁ : List (Option Record)) (r : Record) (l₂ : List (Option Record))
    (h₁ : firstValidationError s 0 l₁ = none)
    (h₂ : missingFields r s ≠ []) :
    validate_input_data (l₁ ++ some r :: l₂) s =
      (false, "Record " ++ toString l₁.length ++ ": Missing required fields: " ++
        pyListRepr ((s.map Prod.fst).filter (fun f => !hasKey r f))) := by
  have hrec : recordError l₁.length (some r) s =
      some ("Record " ++ toString l₁.length ++ ": Missing required fields: " ++
        pyListRepr (missingFields r s)) := by
    unfold recordError
    dsimp only
    rw [if_pos h₂]
  have k₂ : recordError (0 + l₁.length) (some r) s =
      some ("Record " ++ toString l₁.length ++ ": Missing required fields: " ++
        pyListRepr (missingFields r s)) := by simpa using hrec
  unfold validate_input_data
  rw [validateFrom_eq, firstValidationError_append s l₁ 0 (some r) l₂ _ h₁ k₂]
  rfl

/-- C3 witness: a record holding only "YearBuilt" is rejected with the six
other schema fields listed in schema order — which is not alphabetical
(ASCII order would put '1stFlrSF' and '2ndFlrSF' first). -/
theorem validate_missing_fields_message_witness :
    validate_input_data [some [("YearBuilt", JVal.int 2003)]] schemaApp =
      (false, "Record 0: Missing required fields: " ++ pyListRepr
        ["LotArea", "1stFlrSF", "2ndFlrSF", "FullBath", "BedroomAbvGr", "TotRmsAbvGrd"]) := by
  have h := validate_missing_fields_message schemaApp []
    [("YearBuilt", JVal.int 2003)] [] (by rfl) (by decide)
  simp only [List.nil_append] at h
  rw [h]
  rfl

/-- C2: per record, `check_data_types_and_values` collects ALL per-field type
errors and ALL non-negativity errors before deciding (no field-level
short-circuit): one record's accumulators equal the independent per-field
scans `recTypeErrors` / `recValueErrors`; type errors take precedence over
value errors (value errors are reported only when there are zero type
errors); and the batch stops at the first record with any error, the records
after it being interchangeable without affecting the result. -/
theorem check_collect_all_stop_first_record (s : Schema)
    (hnd : (s.map Prod.fst).Nodup) :
    (∀ r : Record,
      (checkRecord r s).typeErrors = recTypeErrors r s ∧
      (checkRecord r s).invalidValues = recValueErrors r s) ∧
    (∀ l : List Record,
      (check_data_types_and_values l s).2 =
        match firstCheckError s 0 l with
        | none => (true, "")
        | some m => (false, m)) ∧
    (∀ (l₁ : List Record) (r : Record) (l₂ l₂' : List Record) (m : String),
      firstCheckError s 0 l₁ = none →
      recCheckError l₁.length r s = some m →
      (check_data_types_and_values (l₁ ++ r :: l₂) s).2 = (false, m) ∧
      (check_data_types_and_values (l₁ ++ r :: l₂) s).2 =
        (check_data_types_and_values (l₁ ++ r :: l₂') s).2) := by
  refine ⟨fun r => ⟨checkRecord_typeErrors r s hnd, checkRecord_invalidValues r s hnd⟩,
    fun l => checkFrom_eq s hnd 0 l, ?_⟩
  intro l₁ r l₂ l₂' m h₁ h₂
  have k₂ : recCheckError (0 + l₁.length) r s = some m := by simpa using h₂
  have e1 : (check_data_types_and_values (l₁ ++ r :: l₂) s).2 = (false, m) := by
    unfold check_data_types_and_values
    rw [checkFrom_eq s hnd, firstCheckError_append s l₁ 0 r l₂ m h₁ k₂]
  have e2 : (check_data_types_and_values (l₁ ++ r :: l₂') s).2 = (false, m) := by
    unfold check_data_types_and_values
    rw [checkFrom_eq s hnd, firstCheckError_append s l₁ 0 r l₂' m h₁ k₂]
  exact ⟨e1, e1.trans e2.symm⟩


/-- C2 witness: on a record carrying both a type error and a value error,
the reported message is the type-errors one. -/
theorem check_collect_all_stop_first_record_witness :
    (check_data_types_and_values [recMixed] schemaApp).2 =
      (false, "Record 0: Invalid input format: Type errors - " ++
        String.intercalate ", " (recTypeErrors recMixed schemaApp)) := by
  have h := (check_collect_all_stop_first_record schemaApp (by decide)).2.1 [recMixed]
  rw [h]
  rfl

/-- C9: `check_data_types_and_values` mutates the batch in place even when it
fails: if it fails at index `i`, the returned batch is the input with every
record up to and including `i` replaced by its post-loop (coerced) form and
the rest untouched — nothing is restored — and within each processed record
every field whose conversion succeeded now holds the converted value. -/
theorem check_mutation_not_atomic (s : Schema) (l l' : List Record) (m : String)
    (h : check_data_types_and_values l s = (l', false, m)) :
    ∃ i, i < l.length ∧
      (∀ j, j < i → recFails (l.getD j []) s = false) ∧
      recFails (l.getD i []) s = true ∧
      l' = (l.take (i + 1)).map (fun r => (checkRecord r s).record) ++ l.drop (i + 1) ∧
      (∀ j, j ≤ i → ∀ (f : String) (ty : PyType) (v : JVal) (pv : PyVal),
        (s.map Prod.fst).Nodup → (f, ty) ∈ s →
        pyGetVal (l.getD j []) f = some v → convert ty v = some pv →
        lookupVal ((checkRecord (l.getD j []) s).record) f = some pv.toJVal) := by
  obtain ⟨i, hi, hpre, hfail, hshape⟩ := checkFrom_fail_shape s l 0 l' m h
  exact ⟨i, hi, hpre, hfail, hshape,
    fun j _ f ty v pv hnd hmem hv hc =>
      checkRecord_coerced (l.getD j []) s f ty v pv hnd hmem hv hc⟩





/-- C9 witness: concrete instantiation on `lEx`, which fails at index 1 with
record 0 already rewritten to its coerced form. -/
theorem check_mutation_not_atomic_witness :
    ∃ i, i < lEx.length ∧
      (∀ j, j < i → recFails (lEx.getD j []) sEx = false) ∧
      recFails (lEx.getD i []) sEx = true ∧
      lExOut = (lEx.take (i + 1)).map (fun r => (checkRecord r sEx).record) ++
        lEx.drop (i + 1) ∧
      (∀ j, j ≤ i → ∀ (f : String) (ty : PyType) (v : JVal) (pv : PyVal),
        (sEx.map Prod.fst).Nodup → (f, ty) ∈ sEx →
        pyGetVal (lEx.getD j []) f = some v → convert ty v = some pv →
        lookupVal ((checkRecord (lEx.getD j []) sEx).record) f = some pv.toJVal) :=
  check_mutation_not_atomic sEx lEx lExOut mEx (by rfl)

/-- C10: a field declared "str" can never contribute an error for a non-null
raw value: the `str` conversion succeeds on every JSON scalar (string, number
or boolean) and the non-negativity check only covers numeric types, so the
per-field step leaves both error accumulators unchanged. -/
theorem str_field_never_errors (v : JVal) (hv : v ≠ JVal.null) :
    convert PyType.str v = some (PyVal.str (pyStr v)) ∧
    ∀ (st : CheckState) (f : String), lookupVal st.record f = some v →
      (checkField st (f, PyType.str)).typeErrors = st.typeErrors ∧
      (checkField st (f, PyType.str)).invalidValues = st.invalidValues := by
  constructor
  · cases v <;> rfl
  · intro st f hl
    have hg : pyGetVal st.record f = some v := by
      unfold pyGetVal
      rw [hl]
      cases v with
      | null => exact absurd rfl hv
      | str a => rfl
      | int n => rfl
      | float q => rfl
      | bool b => rfl
    constructor
    · rw [checkField_typeErrors]
      have hnone : fieldTypeError st.record (f, PyType.str) = none := by
        unfold fieldTypeError
        dsimp only
        rw [hg]
        dsimp only
        cases v <;> rfl
      rw [hnone]
      simp
    · rw [checkField_invalidValues]
      have hnone : fieldValueError st.record (f, PyType.str) = none := by
        unfold fieldValueError
        dsimp only
        rw [hg]
        dsimp only
        cases v <;> rfl
      rw [hnone]
      simp


/-- C10 witness: a boolean value in a str-typed field converts and produces
no error. -/
theorem str_field_never_errors_witness :
    convert PyType.str (JVal.bool true) = some (PyVal.str (pyStr (JVal.bool true))) ∧
    (checkField stEx ("a", PyType.str)).typeErrors = [] ∧
    (checkField stEx ("a", PyType.str)).invalidValues = [] := by
  have h := str_field_never_errors (JVal.bool true) (by simp)
  have h2 := h.2 stEx "a" (by rfl)
  exact ⟨h.1, h2.1, h2.2⟩

/-- C6: a numeric-typed (int or float) field whose raw value converts
successfully to a negative number records the error
"Field '{field}' must be a non-negative number"; when the record carries no
type errors (and passes presence validation), the request fails with a 400
response whose error message contains "Invalid values". -/
theorem negative_numeric_rejected (model : Model) (s : Schema)
    (hnd : (s.map Prod.fst).Nodup) (r : Record) (f : String) (ty : PyType)
    (v : JVal) (pv : PyVal)
    (hmem : (f, ty) ∈ s) (hty : isNumericTy ty = true)
    (hv : pyGetVal r f = some v) (hc : convert ty v = some pv)
    (hneg : pyValNeg pv = true)
    (hnoty : recTypeErrors r s = [])
    (hval : validate_input_data [some r] s = (true, "")) :
    nonNegMsg f ∈ (checkRecord r s).invalidValues ∧
    (runPipeline model s [some r]).1 =
      errResponse 400 ("Record 0: Invalid values: " ++
        String.intercalate ", " (recValueErrors r s)) ∧
    (∃ pre post, "Record 0: Invalid values: " ++
        String.intercalate ", " (recValueErrors r s) =
      pre ++ ("Invalid values" ++ post)) := by
  have hfve : fieldValueError r (f, ty) = some (nonNegMsg f) := by
    unfold fieldValueError
    dsimp only
    rw [hv]
    dsimp only
    rw [hc]
    dsimp only
    rw [hty, hneg]
    rfl
  have hmsg : nonNegMsg f ∈ recValueErrors r s :=
    List.mem_filterMap.mpr ⟨(f, ty), hmem, hfve⟩
  have hvne : recValueErrors r s ≠ [] := by
    intro he
    rw [he] at hmsg
    exact absurd hmsg (by simp)
  have hrc : recCheckError 0 r s = some ("Record 0: Invalid values: " ++
      String.intercalate ", " (recValueErrors r s)) := by
    unfold recCheckError
    rw [if_neg (by simp [hnoty]), if_pos hvne]
    have hlit : ("Record " ++ toString (0 : Nat) ++ ": Invalid values: " : String) =
        "Record 0: Invalid values: " := by decide
    rw [hlit]
  have hchk2 : (check_data_types_and_values [r] s).2 =
      (false, "Record 0: Invalid values: " ++
        String.intercalate ", " (recValueErrors r s)) := by
    unfold check_data_types_and_values
    rw [checkFrom_eq s hnd]
    have hfc : firstCheckError s 0 [r] = some ("Record 0: Invalid values: " ++
        String.intercalate ", " (recValueErrors r s)) := by
      unfold firstCheckError
      rw [hrc]
    rw [hfc]
  have hv1 : (validate_input_data [some r] s).1 = true := by rw [hval]
  have hmapped : ([some r].map (fun o => o.getD ([] : Record))) = [r] := rfl
  have hc1 : (check_data_types_and_values
      ([some r].map (fun o => o.getD [])) s).2.1 = false := by
    rw [hmapped, hchk2]
  have hresp := runPipeline_check_fail model s [some r] hv1 hc1
  refine ⟨?_, ?_, ?_⟩
  · rw [checkRecord_invalidValues r s hnd]
    exact hmsg
  · rw [hresp]
    dsimp only
    rw [hmapped, hchk2]
  · refine ⟨"Record 0: ", ": " ++ String.intercalate ", " (recValueErrors r s), ?_⟩
    have hlit2 : ("Record 0: Invalid values: " : String) =
        ("Record 0: " ++ "Invalid values") ++ ": " := by decide
    rw [← String.append_assoc, ← String.append_assoc, ← hlit2]


/-- C6 witness: the negative "LotArea" of `recNeg` is recorded as a
non-negativity error and surfaces as a 400 "Invalid values" response. -/
theorem negative_numeric_rejected_witness :
    nonNegMsg "LotArea" ∈ (checkRecord recNeg schemaApp).invalidValues ∧
    (runPipeline constModel schemaApp [some recNeg]).1 =
      errResponse 400 ("Record 0: Invalid values: " ++
        String.intercalate ", " (recValueErrors recNeg schemaApp)) ∧
    (∃ pre post, "Record 0: Invalid values: " ++
        String.intercalate ", " (recValueErrors recNeg schemaApp) =
      pre ++ ("Invalid values" ++ post)) :=
  negative_numeric_rejected constModel schemaApp (by decide) recNeg "LotArea"
    PyType.int (JVal.int (-100)) (PyVal.int (-100)) (by decide) (by rfl)
    (by rfl) (by rfl) (by rfl) (by rfl) (by rfl)

/-! Goodness helpers for the round-trip claim. -/

theorem goodField_parts {r : Record} {fld : String × PyType}
    (h : goodField r fld = true) :
    ∃ v pv, pyGetVal r fld.1 = some v ∧ convert fld.2 v = some pv ∧
      pyValNeg pv = false := by
  unfold goodField at h
  cases hv : pyGetVal r fld.1 with
  | none => rw [hv] at h; simp at h
  | some v =>
    rw [hv] at h
    simp only at h
    cases hc : convert fld.2 v with
    | none => rw [hc] at h; simp at h
    | some pv =>
      rw [hc] at h
      simp only at h
      exact ⟨v, pv, rfl, hc, by simpa using h⟩

theorem pyGetVal_isSome {r : Record} {f : String} {v : JVal}
    (h : pyGetVal r f = some v) : (lookupVal r f).isSome = true := by
  unfold pyGetVal at h
  cases hl : lookupVal r f with
  | none => rw [hl] at h; simp at h
  | some w => simp

theorem isNoneAt_eq_isNone (r : Record) (f : String) :
    isNoneAt r f = (pyGetVal r f).isNone := by
  unfold isNoneAt pyGetVal
  cases lookupVal r f with
  | none => rfl
  | some w => cases w <;> rfl

theorem recordError_none_of_good {r : Record} {s : Schema}
    (h : goodRecord r s = true) : ∀ i, recordError i (some r) s = none := by
  intro i
  unfold goodRecord at h
  rw [Bool.and_eq_true] at h
  have hkeys : ∀ f ∈ r.map Prod.fst, schemaHasKey s f = true :=
    fun f hf => List.all_eq_true.mp h.1 f hf
  have hflds : ∀ fld ∈ s, goodField r fld = true :=
    fun fld hfld => List.all_eq_true.mp h.2 fld hfld
  have hmiss : missingFields r s = [] := by
    unfold missingFields
    rw [List.filter_eq_nil_iff]
    intro f hf
    obtain ⟨fld, hfldmem, hfldeq⟩ := List.mem_map.mp hf
    obtain ⟨v, pv, hv, _, _⟩ := goodField_parts (hflds fld hfldmem)
    have hs : (lookupVal r f).isSome = true := by
      rw [← hfldeq]
      exact pyGetVal_isSome hv
    rw [hasKey_eq_isSome, hs]
    simp
  have hextra : extraFields r s = [] := by
    unfold extraFields
    rw [List.filter_eq_nil_iff]
    intro f hf
    rw [hkeys f hf]
    simp
  have hnulls : nullFields r s = [] := by
    unfold nullFields
    rw [List.filter_eq_nil_iff]
    intro f hf
    obtain ⟨fld, hfldmem, hfldeq⟩ := List.mem_map.mp hf
    obtain ⟨v, pv, hv, _, _⟩ := goodField_parts (hflds fld hfldmem)
    rw [isNoneAt_eq_isNone, ← hfldeq, hv]
    simp
  unfold recordError
  dsimp only
  rw [if_neg (by simp [hmiss]), if_neg (by simp [hextra]), if_neg (by simp [hnulls])]

theorem recCheckError_none_of_good {r : Record} {s : Schema}
    (h : goodRecord r s = true) : ∀ i, recCheckError i r s = none := by
  intro i
  unfold goodRecord at h
  rw [Bool.and_eq_true] at h
  have hflds : ∀ fld ∈ s, goodField r fld = true :=
    fun fld hfld => List.all_eq_true.mp h.2 fld hfld
  have hte : recTypeErrors r s = [] := by
    unfold recTypeErrors
    rw [List.filterMap_eq_nil_iff]
    intro fld hfld
    obtain ⟨v, pv, hv, hc, _⟩ := goodField_parts (hflds fld hfld)
    unfold fieldTypeError
    rw [hv]
    simp only
    rw [hc]
  have hve : recValueErrors r s = [] := by
    unfold recValueErrors
    rw [List.filterMap_eq_nil_iff]
    intro fld hfld
    obtain ⟨v, pv, hv, hc, hneg⟩ := goodField_parts (hflds fld hfld)
    unfold fieldValueError
    rw [hv]
    simp only
    rw [hc]
    simp [hneg]
  unfold recCheckError
  rw [if_neg (by simp [hte]), if_neg (by simp [hve])]

/-- C4: every batch of records whose key sets equal the schema's exactly and
whose values are all non-null and convert to their declared types with
non-negative numeric results passes both validation stages unchanged and
reaches the model invocation stage. -/
theorem good_batch_reaches_model (model : Model) (s : Schema)
    (hnd : (s.map Prod.fst).Nodup) (l : List (Option Record))
    (h : ∀ o ∈ l, goodElem o s = true) :
    validate_input_data l s = (true, "") ∧
    (check_data_types_and_values (l.map (fun o => o.getD [])) s).2 = (true, "") ∧
    (runPipeline model s l).2 =
      [Stage.validation, Stage.typecheck, Stage.assembly, Stage.modelPredict] := by
  have hfv : firstValidationError s 0 l = none := by
    apply firstValidationError_none
    intro o ho i
    have hg := h o ho
    cases o with
    | none => simp [goodElem] at hg
    | some r => exact recordError_none_of_good (by simpa [goodElem] using hg) i
  have hvv : validate_input_data l s = (true, "") := by
    unfold validate_input_data
    rw [validateFrom_eq, hfv]
  have hfc : firstCheckError s 0 (l.map (fun o => o.getD [])) = none := by
    apply firstCheckError_none
    intro r hr i
    obtain ⟨o, ho, hor⟩ := List.mem_map.mp hr
    have hg := h o ho
    cases o with
    | none => simp [goodElem] at hg
    | some r' =>
      have hrr : r' = r := by simpa using hor
      subst hrr
      exact recCheckError_none_of_good (by simpa [goodElem] using hg) i
  have hcc : (check_data_types_and_values (l.map (fun o => o.getD [])) s).2 =
      (true, "") := by
    unfold check_data_types_and_values
    rw [checkFrom_eq s hnd, hfc]
  exact ⟨hvv, hcc, runPipeline_trace_all model s l (by rw [hvv]) (by rw [hcc])⟩

/-- C4 witness: the spec §8 example record passes both stages and reaches
the model stage. -/
theorem good_batch_reaches_model_witness :
    validate_input_data [some recEx] schemaApp = (true, "") ∧
    (check_data_types_and_values ([some recEx].map (fun o => o.getD []))
      schemaApp).2 = (true, "") ∧
    (runPipeline constModel schemaApp [some recEx]).2 =
      [Stage.validation, Stage.typecheck, Stage.assembly, Stage.modelPredict] :=
  good_batch_reaches_model constModel schemaApp (by decide) [some recEx] (by decide)
